import Mathlib

/-!
Verification development for the Timeline-Journal wheel-picker subsystem
(`src/js/wheel-picker.js`): a shallow embedding of the selector-column
interaction engine (drag / inertial fling / boundary damping / snap),
the Date/Time picker composite built on it, and the value range provider,
together with theorems settling the specification claims about them.

Pixel quantities (`currentY`, velocities, client coordinates) are embedded
as exact rationals `ℚ`; JavaScript numbers behave exactly like rationals on
every computation the engine performs (additions, multiplications by the
policy constants 0.3 / 0.92, divisions by 36) at the magnitudes involved.
-/

attribute [local semireducible] Rat.mul Rat.add Rat.sub Rat.inv

namespace WheelPicker

/-- `const ITEM_HEIGHT = 36` — fixed row height in pixels. -/
def ITEM_HEIGHT : ℚ := 36

/-- JavaScript `Math.round`: round half toward positive infinity. -/
def jsRound (q : ℚ) : ℤ := ⌊q + 1 / 2⌋

/-- JavaScript `Math.sign`. -/
def jsSign (q : ℚ) : ℤ := if q > 0 then 1 else if q < 0 then -1 else 0

/-- The clamp inside `scrollToIndex`: `Math.max(0, Math.min(items.length - 1, index))`. -/
def clampIdx (n : ℕ) (index : ℤ) : ℤ := max 0 (min ((n : ℤ) - 1) index)

/-- JavaScript `String(i).padStart(2, '0')` for the strings produced by `range`. -/
def padStart2 (s : String) : String := if s.length < 2 then "0" ++ s else s

/-- `range(start, end, padZero)` — the list of decimal strings for
`start..end` inclusive (empty when `end < start`), optionally zero-padded
to two digits. -/
def range (start stop : ℤ) (padZero : Bool) : List String :=
  (List.range (stop + 1 - start).toNat).map fun i =>
    if padZero then padStart2 (toString (start + (i : ℤ))) else toString (start + (i : ℤ))

/-- JavaScript `parseInt` restricted to the all-digit decimal strings that
`range` produces (its only inputs in this code). -/
def parseIntJS (s : String) : ℤ :=
  s.toList.foldl (fun a c => 10 * a + ((c.toNat : ℤ) - 48)) 0

/-- A change notification `(newIndex, items[newIndex])` passed to `onChange`. -/
abbrev Notif := ℤ × String

/-- The mutable closure state of one `createWheelColumn` instance:
`items`, `currentIndex`, `startY`, `currentY`, `lastY`, `velocity`,
`isDragging`.  (`animationId` is not represented: settling runs to
completion inside `handleEnd` in this model, so no animation frame is ever
pending between events.) -/
structure ColumnState where
  items : List String
  currentIndex : ℤ
  currentY : ℚ
  startY : ℚ
  lastY : ℚ
  velocity : ℚ
  isDragging : Bool
  deriving DecidableEq

/-- `minY = -(items.length - 1) * ITEM_HEIGHT` — the lower offset boundary. -/
def colMinY (s : ColumnState) : ℚ := -((s.items.length : ℚ) - 1) * ITEM_HEIGHT

/-- `setPosition(index)` — aligns the visual offset to the index
(the CSS `transition` only affects rendering, the state variable
`currentY` is assigned immediately). -/
def setPosition (s : ColumnState) (index : ℤ) : ColumnState :=
  { s with currentY := -(index : ℚ) * ITEM_HEIGHT }

/-- `scrollToIndex(index)` — clamps, commits the index (firing `onChange`
when it changed) and aligns the position.  The fired notifications are
returned; in the source `onChange` runs synchronously before
`setPosition`, but no handler in this program reads the notifying
column's own state, so returning them is equivalent. -/
def scrollToIndex (s : ColumnState) (index : ℤ) : ColumnState × List Notif :=
  let idx := clampIdx s.items.length index
  if idx ≠ s.currentIndex then
    (setPosition { s with currentIndex := idx } idx, [(idx, s.items.getD idx.toNat "")])
  else
    (setPosition s idx, [])

/-- `getIndexFromPosition(y)` = `Math.round(-y / ITEM_HEIGHT)`. -/
def getIndexFromPosition (y : ℚ) : ℤ := jsRound (-y / ITEM_HEIGHT)

/-- `handleStart(e)` with pointer y-coordinate `clientY`. -/
def handleStart (s : ColumnState) (clientY : ℚ) : ColumnState :=
  { s with
    isDragging := true
    startY := clientY - s.currentY
    lastY := clientY
    velocity := 0 }

/-- `handleMove(e)`: a no-op unless dragging; otherwise follows the pointer
with 0.3× rubber-band damping outside `[minY, 0]` and samples velocity as
the delta between consecutive event y-coordinates. -/
def handleMove (s : ColumnState) (clientY : ℚ) : ColumnState :=
  if s.isDragging then
    let newY := clientY - s.startY
    let maxY : ℚ := 0
    let dampedY :=
      if newY > maxY then maxY + (newY - maxY) * (3 / 10)
      else if newY < colMinY s then colMinY s + (newY - colMinY s) * (3 / 10)
      else newY
    { s with velocity := clientY - s.lastY, lastY := clientY, currentY := dampedY }
  else s

/-- One inertia tick result: the offset and velocity at the moment the
loop stops, and whether the stop condition was reached (`stopped = false`
only when the fuel ran out, which `inertiaScroll_stops` shows cannot
happen for the fuel `handleEnd` supplies). -/
structure InertiaResult where
  y : ℚ
  v : ℚ
  stopped : Bool
  deriving DecidableEq

/-- The `inertiaScroll` animation-frame loop: each tick multiplies the
velocity by the friction factor 0.92 and advances the offset by it,
stopping as soon as the offset leaves `[minY, maxY]` or the speed drops
below 0.5.  The loop is fuel-indexed to be structurally recursive; the
fuel is an upper bound on the tick count, not part of the source
semantics. -/
def inertiaScroll : ℕ → ℚ → ℚ → ℚ → ℚ → InertiaResult
  | 0, y, v, _, _ => ⟨y, v, false⟩
  | fuel + 1, y, v, minY, maxY =>
    let v2 := v * (92 / 100)
    let y2 := y + v2
    if y2 > maxY ∨ y2 < minY ∨ |v2| < 1 / 2 then ⟨y2, v2, true⟩
    else inertiaScroll fuel y2 v2 minY maxY

/-- Fuel that provably outlasts the inertia loop for release velocity `v`. -/
def inertiaFuel (v : ℚ) : ℕ := (⌈23 * |v|⌉).toNat + 1

/-- The full inertial phase entered by `handleEnd` on a fling. -/
def endStop (s : ColumnState) : InertiaResult :=
  inertiaScroll (inertiaFuel s.velocity) s.currentY s.velocity (colMinY s) 0

/-- `handleEnd()`: a no-op unless dragging; otherwise clears the drag flag
and settles — by inertial decay when `|velocity| > 2`, else by a direct
snap to the index nearest the current offset. -/
def handleEnd (s : ColumnState) : ColumnState × List Notif :=
  if s.isDragging then
    let s2 := { s with isDragging := false }
    if |s2.velocity| > 2 then
      let r := endStop s2
      scrollToIndex { s2 with currentY := r.y, velocity := r.v } (getIndexFromPosition r.y)
    else
      scrollToIndex s2 (getIndexFromPosition s2.currentY)
  else (s, [])

/-- The click-to-select handler: `scrollToIndex(parseInt(item.dataset.index), true)`. -/
def clickHandler (s : ColumnState) (index : ℤ) : ColumnState × List Notif :=
  scrollToIndex s index

/-- The wheel handler: one step per discrete wheel tick,
`scrollToIndex(currentIndex + Math.sign(deltaY), true)`. -/
def wheelHandler (s : ColumnState) (deltaY : ℚ) : ColumnState × List Notif :=
  scrollToIndex s (s.currentIndex + jsSign deltaY)

/-- `column._api.setIndex(index, animate)`. -/
def apiSetIndex (s : ColumnState) (index : ℤ) : ColumnState × List Notif :=
  scrollToIndex s index

/-- `column._api.setItems(newItems, newIndex)`: replaces the item list in
place, then `scrollToIndex(Math.min(newIndex, newItems.length - 1), false)`. -/
def apiSetItems (s : ColumnState) (newItems : List String) (newIndex : ℤ) :
    ColumnState × List Notif :=
  scrollToIndex { s with items := newItems } (min newIndex ((newItems.length : ℤ) - 1))

/-- `column._api.getValue()` = `items[currentIndex]` (`none` models the
JavaScript `undefined` of an out-of-range subscript). -/
def apiGetValue (s : ColumnState) : Option String :=
  if h : 0 ≤ s.currentIndex ∧ s.currentIndex.toNat < s.items.length then
    some (s.items.get ⟨s.currentIndex.toNat, h.2⟩)
  else none

/-- `createWheelColumn({items, selectedIndex, ...})` — the state after
construction: `currentIndex = selectedIndex` and the initial
`setPosition(selectedIndex, false)`. -/
def createWheelColumn (items : List String) (selectedIndex : ℤ) : ColumnState :=
  { items := items
    currentIndex := selectedIndex
    currentY := -(selectedIndex : ℚ) * ITEM_HEIGHT
    startY := 0
    lastY := 0
    velocity := 0
    isDragging := false }

/-- The external stimuli a column can receive. -/
inductive ColumnEvent
  | pointerDown (clientY : ℚ)
  | pointerMove (clientY : ℚ)
  | pointerUp
  | clickItem (index : ℤ)
  | wheelTick (deltaY : ℚ)
  | setIndex (index : ℤ)
  | setItems (newItems : List String) (newIndex : ℤ)

/-- Dispatch one event to the column. -/
def stepColumn (s : ColumnState) : ColumnEvent → ColumnState × List Notif
  | .pointerDown y => (handleStart s y, [])
  | .pointerMove y => (handleMove s y, [])
  | .pointerUp => handleEnd s
  | .clickItem i => clickHandler s i
  | .wheelTick d => wheelHandler s d
  | .setIndex i => apiSetIndex s i
  | .setItems l i => apiSetItems s l i

/-- Run a whole event sequence. -/
def runColumn (s : ColumnState) : List ColumnEvent → ColumnState
  | [] => s
  | e :: es => runColumn (stepColumn s e).1 es

/-- The C1 invariant: whenever the column is not mid-drag, the visual
offset is exactly the committed index's resting position. -/
def IdleAligned (s : ColumnState) : Prop :=
  s.isDragging = false → s.currentY = -(s.currentIndex : ℚ) * ITEM_HEIGHT

theorem scrollToIndex_spec (s : ColumnState) (i : ℤ) :
    (scrollToIndex s i).1.currentIndex = clampIdx s.items.length i ∧
    (scrollToIndex s i).1.currentY = -(clampIdx s.items.length i : ℚ) * ITEM_HEIGHT ∧
    (scrollToIndex s i).1.isDragging = s.isDragging ∧
    (scrollToIndex s i).1.items = s.items := by
  unfold scrollToIndex setPosition
  by_cases h : clampIdx s.items.length i = s.currentIndex <;> simp [h]

theorem stepColumn_idleAligned (s : ColumnState) (e : ColumnEvent)
    (hs : IdleAligned s) : IdleAligned (stepColumn s e).1 := by
  have scroll_aligned : ∀ (t : ColumnState) (i : ℤ), IdleAligned (scrollToIndex t i).1 := by
    intro t i _
    rw [(scrollToIndex_spec t i).2.1, (scrollToIndex_spec t i).1]
  cases e with
  | pointerDown y =>
    intro h
    simp [stepColumn, handleStart] at h
  | pointerMove y =>
    intro h
    by_cases hd : s.isDragging
    · simp [stepColumn, handleMove, hd] at h
    · have hd' : s.isDragging = false := by simpa using hd
      simpa [stepColumn, handleMove, hd'] using hs hd'
  | pointerUp =>
    simp only [stepColumn, handleEnd]
    by_cases hd : s.isDragging
    · simp only [hd, if_true]
      by_cases hv : |({ s with isDragging := false } : ColumnState).velocity| > 2 <;>
        simp only [hv, if_true, if_false] <;> exact scroll_aligned _ _
    · simp only [hd, if_false]
      exact hs
  | clickItem i => exact scroll_aligned _ _
  | wheelTick d => exact scroll_aligned _ _
  | setIndex i => exact scroll_aligned _ _
  | setItems l i => exact scroll_aligned _ _

theorem runColumn_idleAligned (s : ColumnState) (es : List ColumnEvent)
    (hs : IdleAligned s) : IdleAligned (runColumn s es) := by
  induction es generalizing s with
  | nil => exact hs
  | cons e es ih => exact ih _ (stepColumn_idleAligned s e hs)

/-- Claim C1: for every selector column, whenever the interaction state is
Idle (at rest after construction and after every settle, click-select,
wheel tick, `setIndex`, or `setItems` completes), the visual offset equals
exactly `-committedIndex * ITEM_HEIGHT`, with no residual drift. -/
theorem idle_offset_equals_committed_index (items : List String) (selectedIndex : ℤ)
    (es : List ColumnEvent)
    (hIdle : (runColumn (createWheelColumn items selectedIndex) es).isDragging = false) :
    (runColumn (createWheelColumn items selectedIndex) es).currentY =
      -((runColumn (createWheelColumn items selectedIndex) es).currentIndex : ℚ) * ITEM_HEIGHT := by
  refine runColumn_idleAligned _ es ?_ hIdle
  intro _
  rfl

/-- Witness for C1: a concrete drag (down, move, release with sub-threshold
velocity, direct snap) ends Idle and exactly aligned. -/
theorem idle_offset_witness :
    (runColumn (createWheelColumn ["a", "b", "c"] 1)
        [ColumnEvent.pointerDown 10, ColumnEvent.pointerMove 12, ColumnEvent.pointerUp]).isDragging
        = false ∧
    (runColumn (createWheelColumn ["a", "b", "c"] 1)
        [ColumnEvent.pointerDown 10, ColumnEvent.pointerMove 12, ColumnEvent.pointerUp]).currentY =
      -(((runColumn (createWheelColumn ["a", "b", "c"] 1)
        [ColumnEvent.pointerDown 10, ColumnEvent.pointerMove 12, ColumnEvent.pointerUp]).currentIndex : ℚ))
        * ITEM_HEIGHT :=
  ⟨by decide, idle_offset_equals_committed_index ["a", "b", "c"] 1
    [ColumnEvent.pointerDown 10, ColumnEvent.pointerMove 12, ColumnEvent.pointerUp] (by decide)⟩

theorem clampIdx_nonneg (n : ℕ) (i : ℤ) : 0 ≤ clampIdx n i := by
  unfold clampIdx; omega

theorem clampIdx_lt (n : ℕ) (i : ℤ) (hn : 0 < n) : clampIdx n i < n := by
  unfold clampIdx; omega

/-- Claim C3: for every non-empty item list and every integer `i`,
`setIndex(i, false)` followed by `getValue()` returns
`items[clamp(i, 0, items.length - 1)]` exactly, and the change
notification fires if and only if the clamped index differs from the
prior committed index. -/
theorem apiGetValue_eq (t : ColumnState) (h0 : 0 ≤ t.currentIndex)
    (h1 : t.currentIndex.toNat < t.items.length) :
    apiGetValue t = some (t.items.getD t.currentIndex.toNat "") := by
  unfold apiGetValue
  rw [dif_pos ⟨h0, h1⟩, List.getD_eq_getElem _ _ h1]
  simp [List.get_eq_getElem]

theorem setIndex_then_getValue (s : ColumnState) (i : ℤ) (hne : s.items ≠ []) :
    apiGetValue (apiSetIndex s i).1 =
      some (s.items.getD (clampIdx s.items.length i).toNat "") ∧
    ((apiSetIndex s i).2 ≠ [] ↔ clampIdx s.items.length i ≠ s.currentIndex) := by
  have hn : 0 < s.items.length := List.length_pos.mpr hne
  have h0 := clampIdx_nonneg s.items.length i
  have h1 := clampIdx_lt s.items.length i hn
  have hspec := scrollToIndex_spec s i
  have hlt : (clampIdx s.items.length i).toNat < s.items.length := by omega
  constructor
  · unfold apiSetIndex
    rw [apiGetValue_eq _ (by rw [hspec.1]; exact h0)
      (by rw [hspec.1, hspec.2.2.2]; exact hlt)]
    rw [hspec.1, hspec.2.2.2]
  · unfold apiSetIndex scrollToIndex setPosition
    by_cases h : clampIdx s.items.length i = s.currentIndex <;> simp [h]

/-- Witness for C3: a concrete column and an out-of-range `setIndex`. -/
theorem setIndex_then_getValue_witness :
    (createWheelColumn ["a", "b", "c"] 0).items ≠ [] ∧
    (apiGetValue (apiSetIndex (createWheelColumn ["a", "b", "c"] 0) 7).1 =
      some ((createWheelColumn ["a", "b", "c"] 0).items.getD
        (clampIdx (createWheelColumn ["a", "b", "c"] 0).items.length 7).toNat "") ∧
    ((apiSetIndex (createWheelColumn ["a", "b", "c"] 0) 7).2 ≠ [] ↔
      clampIdx (createWheelColumn ["a", "b", "c"] 0).items.length 7 ≠
        (createWheelColumn ["a", "b", "c"] 0).currentIndex)) :=
  ⟨by decide, setIndex_then_getValue (createWheelColumn ["a", "b", "c"] 0) 7 (by decide)⟩

/-- Claim C10: a pointer-move or pointer-up delivered while the column is
not dragging is a complete no-op: the state (committed index, offset,
velocity, everything) is unchanged and no notification fires. -/
theorem stray_pointer_events_noop (s : ColumnState) (clientY : ℚ)
    (h : s.isDragging = false) :
    handleMove s clientY = s ∧ handleEnd s = (s, []) := by
  constructor
  · simp [handleMove, h]
  · simp [handleEnd, h]

/-- Witness for C10: a freshly created (idle) column ignores a stray move
and a stray release. -/
theorem stray_pointer_events_noop_witness :
    (createWheelColumn ["x", "y"] 0).isDragging = false ∧
    (handleMove (createWheelColumn ["x", "y"] 0) 50 = createWheelColumn ["x", "y"] 0 ∧
     handleEnd (createWheelColumn ["x", "y"] 0) = (createWheelColumn ["x", "y"] 0, [])) :=
  ⟨by decide, stray_pointer_events_noop (createWheelColumn ["x", "y"] 0) 50 (by decide)⟩

/-- A column mid-drag, resting at index 0 with the pointer anchored so
that `newY = clientY` (used as concrete probe state). -/
def draggingProbe : ColumnState :=
  { items := ["a", "b", "c"]
    currentIndex := 0
    currentY := 0
    startY := 0
    lastY := 0
    velocity := 0
    isDragging := true }

/-- Counterexample to C7: a raw drag of 240 px past the top boundary is
displayed at `0.3 * 240 = 72 = 2 * ITEM_HEIGHT` — the displayed offset
does reach two item-heights past the boundary, refuting "never reaches". -/
theorem damping_reaches_two_item_heights :
    (handleMove draggingProbe 240).currentY = 2 * ITEM_HEIGHT ∧
    ¬ ((handleMove draggingProbe 240).currentY < 2 * ITEM_HEIGHT) := by
  constructor <;> decide

/-- Claim C7 (amended): while dragging a non-empty column, once the raw
pointer-implied offset leaves `[-(n-1)*ITEM_HEIGHT, 0]`, the displayed
offset beyond the boundary equals exactly 0.3 times the raw overshoot,
and it stays below two item-heights past the boundary exactly when the raw
overshoot is below 240 px (= 2*ITEM_HEIGHT / 0.3); the bound claimed for
every raw drag distance does not hold. -/
theorem boundary_damping (s : ColumnState) (clientY : ℚ)
    (hd : s.isDragging = true) (hne : s.items ≠ []) :
    (clientY - s.startY > 0 →
      (handleMove s clientY).currentY = (3 / 10) * (clientY - s.startY) ∧
      ((handleMove s clientY).currentY < 2 * ITEM_HEIGHT ↔ clientY - s.startY < 240)) ∧
    (clientY - s.startY < colMinY s →
      colMinY s - (handleMove s clientY).currentY
          = (3 / 10) * (colMinY s - (clientY - s.startY)) ∧
      (colMinY s - (handleMove s clientY).currentY < 2 * ITEM_HEIGHT ↔
        colMinY s - (clientY - s.startY) < 240)) := by
  have hn : 0 < s.items.length := List.length_pos.mpr hne
  have hmin : colMinY s ≤ 0 := by
    unfold colMinY ITEM_HEIGHT
    have : (1 : ℚ) ≤ (s.items.length : ℚ) := by exact_mod_cast hn
    nlinarith
  constructor
  · intro hpos
    have hcur : (handleMove s clientY).currentY = 0 + (clientY - s.startY - 0) * (3 / 10) := by
      simp only [handleMove, hd, if_true, hpos]
    constructor
    · rw [hcur]; ring
    · rw [hcur]
      unfold ITEM_HEIGHT
      constructor <;> intro <;> linarith
  · intro hneg
    have hnpos : ¬ (clientY - s.startY > 0) := by linarith
    have hcur : (handleMove s clientY).currentY
        = colMinY s + (clientY - s.startY - colMinY s) * (3 / 10) := by
      simp only [handleMove, hd, if_true, hnpos, if_false, hneg]
    constructor
    · rw [hcur]; ring
    · rw [hcur]
      unfold ITEM_HEIGHT
      constructor <;> intro <;> linarith

/-- Witness for C7 (amended): the probe column dragged 10 px past the top
boundary. -/
theorem boundary_damping_witness :
    (draggingProbe.isDragging = true ∧ draggingProbe.items ≠ []) ∧
    (((10 : ℚ) - draggingProbe.startY > 0 →
      (handleMove draggingProbe 10).currentY = (3 / 10) * (10 - draggingProbe.startY) ∧
      ((handleMove draggingProbe 10).currentY < 2 * ITEM_HEIGHT ↔
        (10 : ℚ) - draggingProbe.startY < 240)) ∧
    ((10 : ℚ) - draggingProbe.startY < colMinY draggingProbe →
      colMinY draggingProbe - (handleMove draggingProbe 10).currentY
          = (3 / 10) * (colMinY draggingProbe - ((10 : ℚ) - draggingProbe.startY)) ∧
      (colMinY draggingProbe - (handleMove draggingProbe 10).currentY < 2 * ITEM_HEIGHT ↔
        colMinY draggingProbe - ((10 : ℚ) - draggingProbe.startY) < 240))) :=
  ⟨⟨by decide, by decide⟩, boundary_damping draggingProbe 10 (by decide) (by decide)⟩

/-- The inertia loop always reaches its stop condition before any fuel at
least `23 * |v|` runs out: each surviving tick has `|velocity| ≥ 1/2` and
the decay `v *= 0.92` then shrinks `23 * |velocity|` by at least 1. -/
theorem inertiaScroll_stops (fuel : ℕ) :
    ∀ (y v minY maxY : ℚ), 23 * |v| < (fuel : ℚ) →
      (inertiaScroll fuel y v minY maxY).stopped = true := by
  induction fuel with
  | zero =>
    intro y v minY maxY h
    have := abs_nonneg v
    norm_num at h
    linarith
  | succ n ih =>
    intro y v minY maxY h
    simp only [inertiaScroll]
    split
    · rfl
    · rename_i hc
      apply ih
      push_neg at hc
      have habs : |v * (92 / 100)| = |v| * (92 / 100) := by
        rw [abs_mul]
        norm_num [abs_of_pos]
      have hge : (1 : ℚ) / 2 ≤ |v| * (92 / 100) := by
        have := hc.2.2
        rw [habs] at this
        linarith [this]
      rw [habs]
      have h' : 23 * |v| < (n : ℚ) + 1 := by
        have : ((n + 1 : ℕ) : ℚ) = (n : ℚ) + 1 := by push_cast; ring
        linarith [this ▸ h]
      nlinarith

theorem endStop_stopped (s : ColumnState) : (endStop s).stopped = true := by
  apply inertiaScroll_stops
  unfold inertiaFuel
  have h0 : (0 : ℚ) ≤ 23 * |s.velocity| := by positivity
  have h1 : (23 * |s.velocity| : ℚ) ≤ (⌈23 * |s.velocity|⌉ : ℚ) := Int.le_ceil _
  have h2 : (0 : ℤ) ≤ ⌈23 * |s.velocity|⌉ := Int.ceil_nonneg h0
  have h3 : ((⌈23 * |s.velocity|⌉.toNat : ℕ) : ℚ) = (⌈23 * |s.velocity|⌉ : ℚ) := by
    exact_mod_cast congrArg (fun z : ℤ => (z : ℚ)) (Int.toNat_of_nonneg h2)
  push_cast
  rw [h3]
  linarith

/-- Claim C4: a release from index 58 of a 60-item column with fling
velocity (`|velocity| > 2`) whose inertial trajectory crosses the far
boundary terminates (the loop reaches its stop condition within the fuel)
and commits exactly index 59 — the clamped boundary index, never an
out-of-range index and never index 0. -/
theorem fling_past_boundary_commits_last (s : ColumnState)
    (hlen : s.items.length = 60) (hidx : s.currentIndex = 58)
    (hdrag : s.isDragging = true) (hv : |s.velocity| > 2)
    (hcross : (endStop s).y < colMinY s) :
    (handleEnd s).1.currentIndex = 59 ∧ (handleEnd s).2 ≠ [] ∧
    (endStop s).stopped = true := by
  have hmin : colMinY s = -2124 := by
    unfold colMinY ITEM_HEIGHT
    rw [hlen]
    norm_num
  have htarget : 59 ≤ getIndexFromPosition (endStop s).y := by
    unfold getIndexFromPosition jsRound
    rw [Int.le_floor]
    have : (endStop s).y < -2124 := hmin ▸ hcross
    have h36 : (0 : ℚ) < 36 := by norm_num
    have : (59 : ℚ) < -(endStop s).y / 36 := by
      rw [lt_div_iff₀ h36]
      linarith
    push_cast
    unfold ITEM_HEIGHT
    linarith
  have hclamp : clampIdx s.items.length (getIndexFromPosition (endStop s).y) = 59 := by
    unfold clampIdx
    rw [hlen]
    omega
  have hstep : handleEnd s = scrollToIndex { s with isDragging := false, currentY := (endStop s).y, velocity := (endStop s).v } (getIndexFromPosition (endStop s).y) := by
    unfold handleEnd
    rw [if_pos hdrag, if_pos hv]
    rfl
  rw [hstep]
  have hspec := scrollToIndex_spec { s with isDragging := false, currentY := (endStop s).y, velocity := (endStop s).v } (getIndexFromPosition (endStop s).y)
  have hne2 : clampIdx ({ s with isDragging := false, currentY := (endStop s).y, velocity := (endStop s).v } : ColumnState).items.length (getIndexFromPosition (endStop s).y) ≠ ({ s with isDragging := false, currentY := (endStop s).y, velocity := (endStop s).v } : ColumnState).currentIndex := by
    show clampIdx s.items.length (getIndexFromPosition (endStop s).y) ≠ s.currentIndex
    rw [hclamp, hidx]
    decide
  refine ⟨?_, ?_, endStop_stopped s⟩
  · rw [hspec.1]
    exact hclamp
  · simp [scrollToIndex, hne2]

/-- A 60-item minute column mid-drag at index 58 (offset −2088 px) with
release velocity −30 px/event: its inertial trajectory crosses past the
last index (−2124 px) on the second tick. -/
def flingProbe : ColumnState :=
  { items := range 0 59 true
    currentIndex := 58
    currentY := -2088
    startY := 0
    lastY := 0
    velocity := -30
    isDragging := true }

/-- Witness for C4: the concrete fling from index 58 commits index 59. -/
theorem fling_past_boundary_witness :
    (flingProbe.items.length = 60 ∧ flingProbe.currentIndex = 58 ∧
     flingProbe.isDragging = true ∧ |flingProbe.velocity| > 2 ∧
     (endStop flingProbe).y < colMinY flingProbe) ∧
    ((handleEnd flingProbe).1.currentIndex = 59 ∧ (handleEnd flingProbe).2 ≠ [] ∧
     (endStop flingProbe).stopped = true) :=
  ⟨⟨by decide, by decide, by decide, by decide, by decide⟩,
   fling_past_boundary_commits_last flingProbe (by decide) (by decide) (by decide)
     (by decide) (by decide)⟩

/-- A JavaScript `Date`'s calendar view: year, 0-based month (normalized
into `[0, 11]`), 1-based day of month.  Time-of-day fields are unused by
the picker. -/
structure JSDate where
  year : ℤ
  month : ℤ
  day : ℤ
  deriving DecidableEq

/-- Gregorian leap-year rule (what `new Date(y, 1, 29)` implements). -/
def isLeap (y : ℤ) : Bool := (y % 4 == 0 && y % 100 != 0) || y % 400 == 0

/-- Length of 1-based month `m1` (assumed in `[1, 12]`) of year `y`. -/
def monthLen (y : ℤ) (m1 : ℤ) : ℤ :=
  if m1 = 2 then (if isLeap y then 29 else 28)
  else if m1 = 4 ∨ m1 = 6 ∨ m1 = 9 ∨ m1 = 11 then 30
  else 31

/-- JavaScript `Date` day-of-month normalization: roll a possibly
out-of-range day into `[1, monthLen]`, borrowing/carrying whole months.
Fuel bounds the month steps; the single-month drifts this program
produces stay far below it. -/
def rollDay : ℕ → ℤ → ℤ → ℤ → JSDate
  | 0, y, m, d => ⟨y, m, d⟩
  | fuel + 1, y, m, d =>
    if d < 1 then
      let m2 : ℤ := if m = 0 then 11 else m - 1
      let y2 : ℤ := if m = 0 then y - 1 else y
      rollDay fuel y2 m2 (d + monthLen y2 (m2 + 1))
    else if d > monthLen y (m + 1) then
      let m2 : ℤ := if m = 11 then 0 else m + 1
      let y2 : ℤ := if m = 11 then y + 1 else y
      rollDay fuel y2 m2 (d - monthLen y (m + 1))
    else ⟨y, m, d⟩

/-- `new Date(year, month, day)` (0-based `month`, possibly out of range):
normalizes the month into `[0, 11]` adjusting the year (floor division,
as JavaScript does), then rolls the day. -/
def mkJSDate (y m d : ℤ) : JSDate := rollDay 600 (y + m.ediv 12) (m.emod 12) d

/-- `getDaysInMonth(year, month)` = `new Date(year, month, 0).getDate()`:
the 1-based `month` lands in the 0-based slot (= the following month) and
day 0 rolls back to the last day of `month` itself. -/
def getDaysInMonth (year month : ℤ) : ℤ := (mkJSDate year month 0).day

/-- `Date.prototype.setFullYear` (month and day kept, then normalized). -/
def JSDate.setFullYear (dt : JSDate) (y : ℤ) : JSDate := mkJSDate y dt.month dt.day

/-- `Date.prototype.setMonth` (day kept, then normalized — day overflow
rolls into the next month, JavaScript-style). -/
def JSDate.setMonth (dt : JSDate) (m : ℤ) : JSDate := mkJSDate dt.year m dt.day

/-- `Date.prototype.setDate`. -/
def JSDate.setDate (dt : JSDate) (d : ℤ) : JSDate := mkJSDate dt.year dt.month d

/-- `const months = range(1, 12)` — the month column's item list.  Note:
built without the `padZero` flag in the source. -/
def monthItems : List String := range 1 12 false

/-- JavaScript `Array.prototype.indexOf` (−1 when absent). -/
def indexOfJS (l : List String) (x : String) : ℤ :=
  match l.findIdx? (fun s => s == x) with
  | some i => (i : ℤ)
  | none => -1

/-- The `mode === 'date'` picker card: the mutable `currentValue` Date,
the three wheel columns, the composite `onChange` payload log
(`new Date(currentValue)` snapshots, in firing order), and a count of the
day column's own change notifications. -/
structure DatePickerState where
  value : JSDate
  yearCol : ColumnState
  monthCol : ColumnState
  dayCol : ColumnState
  changes : List JSDate
  dayNotifs : ℕ
  deriving DecidableEq

/-- The day column's `onChange` handler:
`currentValue.setDate(parseInt(val)); updateTitle(); onChange(new Date(currentValue))`. -/
def dayColChanged (p : DatePickerState) (val : String) : DatePickerState :=
  let v := p.value.setDate (parseIntJS val)
  { p with value := v, changes := p.changes ++ [v], dayNotifs := p.dayNotifs + 1 }

/-- `updateDayColumn()`: recompute the day count for the current
year/month, clamp the kept day, write it back with `setDate`, and
`setItems` the day column — any notification the `setItems` fires runs
the day column's handler synchronously. -/
def updateDayColumn (p : DatePickerState) : DatePickerState :=
  let daysInMonth := getDaysInMonth p.value.year (p.value.month + 1)
  let currentDay := min p.value.day daysInMonth
  let p2 := { p with value := p.value.setDate currentDay }
  let r := apiSetItems p2.dayCol (range 1 daysInMonth false) (currentDay - 1)
  r.2.foldl (fun q n => dayColChanged q n.2) { p2 with dayCol := r.1 }

/-- The month column's `onChange` handler:
`currentValue.setMonth(parseInt(val) - 1); updateDayColumn(); updateTitle(); onChange(new Date(currentValue))`. -/
def monthColChanged (p : DatePickerState) (val : String) : DatePickerState :=
  let p2 := updateDayColumn { p with value := p.value.setMonth (parseIntJS val - 1) }
  { p2 with changes := p2.changes ++ [p2.value] }

/-- The year column's `onChange` handler (same shape with `setFullYear`). -/
def yearColChanged (p : DatePickerState) (val : String) : DatePickerState :=
  let p2 := updateDayColumn { p with value := p.value.setFullYear (parseIntJS val) }
  { p2 with changes := p2.changes ++ [p2.value] }

/-- A user interaction committing month index `i` on the month column
(how scenario B's drag ends): the column's `scrollToIndex` runs and each
fired notification goes through the month handler. -/
def commitMonthIndex (p : DatePickerState) (i : ℤ) : DatePickerState :=
  let r := apiSetIndex p.monthCol i
  r.2.foldl (fun q n => monthColChanged q n.2) { p with monthCol := r.1 }

/-- `create({mode: 'date', value})` — the initial picker state.  `years`
is the list `getYearRange()` returned (it depends on stored settings and
the clock, so it is passed in here). -/
def createDatePicker (years : List String) (value : JSDate) : DatePickerState :=
  let yearIndex := indexOfJS years (toString value.year)
  { value := value
    yearCol := createWheelColumn years
      (if yearIndex ≥ 0 then yearIndex else (years.length : ℤ) - 1)
    monthCol := createWheelColumn monthItems value.month
    dayCol := createWheelColumn
      (range 1 (getDaysInMonth value.year (value.month + 1)) false) (value.day - 1)
    changes := []
    dayNotifs := 0 }

/-- Scenario B of the spec: a Date picker opened at 2024-02-29 (leap day)
whose month column then commits April (index 3, item "4").  The year list
is `getYearRange()` for birth year 2000 and current year 2026. -/
def leapDayScenario : DatePickerState :=
  commitMonthIndex (createDatePicker (range 2000 2027 false) ⟨2024, 1, 29⟩) 3

/-- Counterexample to C2: after committing April the committed day is 29
(April has 30 days, so 29 needs no clamping) and the day column fires no
change notification at all — not day 30 with one notification as claimed. -/
theorem leap_day_claim_fails :
    leapDayScenario.value.day = 29 ∧ leapDayScenario.dayNotifs = 0 ∧
    ¬ (leapDayScenario.value.day = 30 ∧ leapDayScenario.dayNotifs = 1) := by
  refine ⟨by decide, by decide, ?_⟩
  intro h
  exact absurd h.2 (by decide)

/-- Claim C2 (amended): committing the month change 2024-02-29 → April
rebuilds the day column's item list to 1..30, keeps the committed day at
29 (its index 28 is unchanged, so the day column fires no notification),
and the composite fires exactly one change — from the month commit, with
value 2024-04-29. -/
theorem leap_day_to_april :
    leapDayScenario.dayCol.items = range 1 30 false ∧
    leapDayScenario.dayCol.currentIndex = 28 ∧
    leapDayScenario.value = ⟨2024, 3, 29⟩ ∧
    leapDayScenario.dayNotifs = 0 ∧
    leapDayScenario.changes = [⟨2024, 3, 29⟩] := by
  refine ⟨by decide, by decide, by decide, by decide, by decide⟩

/-- The `mode === 'time'` picker card: `currentValue` = {hour, minute},
two wheel columns, and the composite `onChange` payload log. -/
structure TimePickerState where
  hour : ℤ
  minute : ℤ
  hourCol : ColumnState
  minuteCol : ColumnState
  changes : List (ℤ × ℤ)
  deriving DecidableEq

/-- The hour column's `onChange` handler:
`currentValue.hour = parseInt(val); updateTitle(); onChange({...currentValue})`. -/
def hourColChanged (p : TimePickerState) (val : String) : TimePickerState :=
  let p2 := { p with hour := parseIntJS val }
  { p2 with changes := p2.changes ++ [(p2.hour, p2.minute)] }

/-- The minute column's `onChange` handler. -/
def minuteColChanged (p : TimePickerState) (val : String) : TimePickerState :=
  let p2 := { p with minute := parseIntJS val }
  { p2 with changes := p2.changes ++ [(p2.hour, p2.minute)] }

/-- `create({mode: 'time', value: {hour, minute}})`. -/
def createTimePicker (hour minute : ℤ) : TimePickerState :=
  { hour := hour
    minute := minute
    hourCol := createWheelColumn (range 0 23 true) hour
    minuteCol := createWheelColumn (range 0 59 true) minute
    changes := [] }

/-- The "now" quick-action in Time mode with frozen clock
`(nowHour, nowMinute)`: replaces `currentValue`, `setIndex`es both
columns (each commit synchronously runs that column's handler, which
itself calls the composite `onChange`), then calls `onChange` once more
at the end of the click handler. -/
def quickNowTime (p : TimePickerState) (nowHour nowMinute : ℤ) : TimePickerState :=
  let p1 := { p with hour := nowHour, minute := nowMinute }
  let rh := apiSetIndex p1.hourCol nowHour
  let p2 := rh.2.foldl (fun q n => hourColChanged q n.2) { p1 with hourCol := rh.1 }
  let rm := apiSetIndex p2.minuteCol nowMinute
  let p3 := rm.2.foldl (fun q n => minuteColChanged q n.2) { p2 with minuteCol := rm.1 }
  { p3 with changes := p3.changes ++ [(p3.hour, p3.minute)] }

/-- Scenario A of the spec: Time mode opened at 23:58, "now" clicked with
the clock frozen at 09:15. -/
def nowScenario : TimePickerState := quickNowTime (createTimePicker 23 58) 9 15

/-- Counterexample to C5: the quick-action fires the composite `onChange`
three times (hour commit, minute commit, final explicit call), each with
{hour 9, minute 15} — not exactly once as claimed. -/
theorem now_fires_three_times :
    nowScenario.changes = [(9, 15), (9, 15), (9, 15)] ∧
    ¬ (nowScenario.changes.length = 1) := by
  exact ⟨by decide, by decide⟩

/-- Claim C5 (amended): the "now" quick-action with clock 09:15 on a
picker at 23:58 resets both columns to the current time and leaves the
composite value at {hour 9, minute 15}; `onChange` fires three times
(once per changed column commit plus once at the end of the handler),
every time with {hour 9, minute 15}. -/
theorem now_quick_action_resets :
    nowScenario.hourCol.currentIndex = 9 ∧
    nowScenario.minuteCol.currentIndex = 15 ∧
    nowScenario.hour = 9 ∧ nowScenario.minute = 15 ∧
    nowScenario.changes = [(9, 15), (9, 15), (9, 15)] := by
  refine ⟨by decide, by decide, by decide, by decide, by decide⟩

/-- What the stored `diary_settings.birthday` can look like to
`getYearRange()`. -/
inductive BirthdaySetting
  | missing
  | malformedJson
  | unparseableDate
  | storedDate (y : ℤ)

/-- The birth year `getYearRange` ends up with: 2000 when the setting is
absent (falsy) or `JSON.parse` throws (caught by the `try`); the stored
year when the date string parses; `none` — JavaScript `NaN` from
`new Date(bad).getFullYear()` — when it does not. -/
def birthYearOf : BirthdaySetting → Option ℤ
  | .missing => some 2000
  | .malformedJson => some 2000
  | .unparseableDate => none
  | .storedDate y => some y

/-- `getYearRange()` for a given stored setting and current year.  With a
`NaN` birth year the `for (let i = NaN; i <= end; i++)` loop guard is
false immediately, so `range` returns the empty list. -/
def getYearRange (b : BirthdaySetting) (currentYear : ℤ) : List String :=
  match birthYearOf b with
  | none => []
  | some y => range y (currentYear + 1) false

/-- C6 (code bug): a stored but unparseable birthday string makes
`getYearRange()` return the empty list (no fallback to the default year
fires on this path), while the missing and JSON-malformed cases do fall
back to 2000 and give the non-empty list 2000..currentYear+1. -/
theorem yearRange_empty_on_unparseable :
    getYearRange .unparseableDate 2026 = [] ∧
    getYearRange .missing 2026 = range 2000 2027 false ∧
    getYearRange .malformedJson 2026 = range 2000 2027 false ∧
    (getYearRange .missing 2026).length = 28 := by
  refine ⟨by decide, by decide, by decide, by decide⟩

/-- Counterexample to C8: the month column's items are not the
zero-padded strings "01".."12". -/
theorem month_items_not_padded :
    ¬ (monthItems =
      ["01", "02", "03", "04", "05", "06", "07", "08", "09", "10", "11", "12"]) := by
  decide

/-- Claim C8 (amended): the month column's item list consists of the
twelve unpadded decimal strings "1" through "12", in ascending order
(`range(1, 12)` is called without the zero-pad flag). -/
theorem month_items_unpadded :
    monthItems = ["1", "2", "3", "4", "5", "6", "7", "8", "9", "10", "11", "12"] := by
  decide

/-- A tiny object heap (cells addressed by allocation order), used to
state the aliasing/freshness behaviour of the handle's `getValue()` —
facts a pure value semantics would make trivially true by construction. -/
structure Heap (α : Type) where
  cells : List α
  deriving DecidableEq

/-- Dereference (JavaScript property read through an object reference). -/
def Heap.read {α : Type} [Inhabited α] (h : Heap α) (r : ℕ) : α :=
  h.cells.getD r default

/-- Allocate a new object holding `v`; returns its fresh reference. -/
def Heap.alloc {α : Type} (h : Heap α) (v : α) : Heap α × ℕ :=
  (⟨h.cells ++ [v]⟩, h.cells.length)

/-- Mutate the object behind reference `r` (JavaScript property write). -/
def Heap.write {α : Type} (h : Heap α) (r : ℕ) (v : α) : Heap α :=
  ⟨h.cells.set r v⟩

/-- The handle's `getValue`:
`() => mode === 'date' ? new Date(currentValue) : { ...currentValue }` —
allocates a fresh copy of the object behind `currentValue`'s reference
`cur` and returns the copy's reference, touching nothing else. -/
def getValueRef {α : Type} [Inhabited α] (h : Heap α) (cur : ℕ) : Heap α × ℕ :=
  h.alloc (h.read cur)

/-- The value the confirm handler passes to `onConfirm`:
`mode === 'date' ? new Date(currentValue) : { ...currentValue }` — again a
copy of whatever currently sits behind `currentValue`'s reference. -/
def confirmPayload {α : Type} [Inhabited α] (h : Heap α) (cur : ℕ) : α :=
  h.read cur

theorem heap_getD_set_ne {α : Type} (l : List α) (i j : ℕ) (v d : α) (hij : i ≠ j) :
    (l.set i v).getD j d = l.getD j d := by
  rw [List.getD_eq_getD_get?, List.getD_eq_getD_get?, List.get?_eq_getElem?,
    List.get?_eq_getElem?, List.getElem?_set_ne hij]

/-- Claim C9: `getValue()` is a pure read returning a fresh copy: the
returned reference is distinct from `currentValue`'s, every
previously-existing cell (all picker and column state) reads unchanged,
the copy holds the current value, and writing through the returned
reference changes neither what a later `getValue()` reads behind
`currentValue` nor what `confirm()` would pass to `onConfirm`. -/
theorem getValue_fresh_copy {α : Type} [Inhabited α] (h : Heap α) (cur : ℕ)
    (hcur : cur < h.cells.length) (v : α) :
    (getValueRef h cur).2 ≠ cur ∧
    (∀ j, j < h.cells.length → (getValueRef h cur).1.read j = h.read j) ∧
    (getValueRef h cur).1.read (getValueRef h cur).2 = h.read cur ∧
    ((getValueRef h cur).1.write (getValueRef h cur).2 v).read cur = h.read cur ∧
    confirmPayload ((getValueRef h cur).1.write (getValueRef h cur).2 v) cur
      = h.read cur := by
  have hlen : (getValueRef h cur).2 = h.cells.length := rfl
  refine ⟨?_, ?_, ?_, ?_, ?_⟩
  · rw [hlen]
    omega
  · intro j hj
    show (h.cells ++ [h.read cur]).getD j default = h.read j
    rw [List.getD_append _ _ _ _ hj]
    rfl
  · show (h.cells ++ [h.read cur]).getD h.cells.length default = h.read cur
    rw [List.getD_append_right _ _ _ _ (le_refl _)]
    simp
  · show ((h.cells ++ [h.read cur]).set h.cells.length v).getD cur default = h.read cur
    rw [heap_getD_set_ne _ _ _ _ _ (by omega)]
    show (h.cells ++ [h.read cur]).getD cur default = h.read cur
    rw [List.getD_append _ _ _ _ hcur]
    rfl
  · show ((h.cells ++ [h.read cur]).set h.cells.length v).getD cur default = h.read cur
    rw [heap_getD_set_ne _ _ _ _ _ (by omega)]
    show (h.cells ++ [h.read cur]).getD cur default = h.read cur
    rw [List.getD_append _ _ _ _ hcur]
    rfl

/-- Witness for C9: a Time-mode heap whose `currentValue` cell holds
{hour 9, minute 15}, mutated through the returned copy with {hour 0,
minute 0}. -/
theorem getValue_fresh_copy_witness :
    (0 < (Heap.mk [((9 : ℤ), (15 : ℤ))]).cells.length) ∧
    ((getValueRef (Heap.mk [((9 : ℤ), (15 : ℤ))]) 0).2 ≠ 0 ∧
    (∀ j, j < (Heap.mk [((9 : ℤ), (15 : ℤ))]).cells.length →
      (getValueRef (Heap.mk [((9 : ℤ), (15 : ℤ))]) 0).1.read j
        = (Heap.mk [((9 : ℤ), (15 : ℤ))]).read j) ∧
    (getValueRef (Heap.mk [((9 : ℤ), (15 : ℤ))]) 0).1.read
        (getValueRef (Heap.mk [((9 : ℤ), (15 : ℤ))]) 0).2
      = (Heap.mk [((9 : ℤ), (15 : ℤ))]).read 0 ∧
    ((getValueRef (Heap.mk [((9 : ℤ), (15 : ℤ))]) 0).1.write
        (getValueRef (Heap.mk [((9 : ℤ), (15 : ℤ))]) 0).2 (0, 0)).read 0
      = (Heap.mk [((9 : ℤ), (15 : ℤ))]).read 0 ∧
    confirmPayload ((getValueRef (Heap.mk [((9 : ℤ), (15 : ℤ))]) 0).1.write
        (getValueRef (Heap.mk [((9 : ℤ), (15 : ℤ))]) 0).2 (0, 0)) 0
      = (Heap.mk [((9 : ℤ), (15 : ℤ))]).read 0) :=
  ⟨by decide, getValue_fresh_copy (Heap.mk [((9 : ℤ), (15 : ℤ))]) 0 (by decide) (0, 0)⟩

end WheelPicker
